import Mathlib

/-!
Requests/limits validation rule: a shallow embedding.

Embedding of `pkg/validations/requests_limits.go`.

* The gauge vector (`prometheus.GaugeVec`) is a finite map from label sets to
  values; it is modelled as a function `Labels → Option Int` where `none`
  means "no series".  The rule only ever stores the constants `0` and `1`.
* The object handed to the rule is an `interface{}`; the rule reads it through
  `reflect`.  `Obj` lists the dynamic values the rule is declared for (a
  `Deployment` or a `ReplicaSet` struct value) and the untyped `nil`.
* A reflection call that panics in Go makes the embedded function return
  `none`; `some m` is a normal return with final gauge state `m`.
-/

namespace Validations

/-! ## Kubernetes data the rule reads -/

/-- A `resource.Quantity`; only its amount matters to the rule. -/
structure Quantity where
  value : Int
  deriving DecidableEq, Repr

/-- The method `Quantity.IsZero`. -/
def Quantity.IsZero (q : Quantity) : Bool := q.value == 0

/-- A `v1.ResourceList`, a map from resource name to quantity, kept as an
association list read by first match. -/
abbrev ResourceList := List (String × Quantity)

/-- The method `ResourceList.Memory`: the entry under `memory`, or a zero quantity
when the entry is absent. -/
def ResourceList.Memory (rl : ResourceList) : Quantity :=
  match rl.lookup "memory" with
  | some q => q
  | none => ⟨0⟩

/-- The method `ResourceList.Cpu`: the entry under `cpu`, or a zero quantity when
the entry is absent. -/
def ResourceList.Cpu (rl : ResourceList) : Quantity :=
  match rl.lookup "cpu" with
  | some q => q
  | none => ⟨0⟩

/-- A `v1.ResourceRequirements`. -/
structure ResourceRequirements where
  Limits : ResourceList
  Requests : ResourceList
  deriving DecidableEq, Repr

/-- A `v1.Container`, reduced to the field the rule reads. -/
structure Container where
  Name : String
  Resources : ResourceRequirements
  deriving DecidableEq, Repr

/-- The fields of an `appsv1.Deployment` or `appsv1.ReplicaSet` that the rule and
the sweep read: `Namespace` and `Name` (promoted from `ObjectMeta`),
`Spec.Replicas` (a `*int32`, `none` for the nil pointer) and
`Spec.Template.Spec.Containers`. -/
structure Workload where
  Namespace : String
  Name : String
  Replicas : Option Int
  Containers : List Container
  deriving DecidableEq, Repr

/-- The dynamic value of the `obj interface{}` argument. -/
inductive Obj where
  | nil
  | Deployment (d : Workload)
  | ReplicaSet (r : Workload)
  deriving DecidableEq, Repr

/-- A `reconcile.Request`: the namespaced name of the object. -/
structure Request where
  Namespace : String
  Name : String
  deriving DecidableEq, Repr

/-! ## The gauge vector -/

/-- The label set of one series of the gauge, declared with the label names
`namespace`, `name`, `kind`. -/
structure Labels where
  Namespace : String
  Name : String
  Kind : String
  deriving DecidableEq, Repr

/-- Modelled from the spec: the helper `getPromLabels` is not part of the file; the
series are "labeled by namespace, name, kind" and the identity is that triple.  The
argument order is the one of the call site: name, namespace, kind. -/
def getPromLabels (name ns kind : String) : Labels :=
  { Namespace := ns, Name := name, Kind := kind }

/-- The state of the `GaugeVec`: the value of each existing series. -/
abbrev GaugeVec := Labels → Option Int

/-- The gauge vector without any series. -/
def GaugeVec.empty : GaugeVec := fun _ => none

/-- The effect of `metric.With(labels).Set(v)`: create or overwrite the series. -/
def GaugeVec.Set (m : GaugeVec) (labels : Labels) (v : Int) : GaugeVec :=
  fun l => if l = labels then some v else m l

/-- The effect of `metric.Delete(labels)`: remove the series when it exists. -/
def GaugeVec.Delete (m : GaugeVec) (labels : Labels) : GaugeVec :=
  fun l => if l = labels then none else m l

/-! ## The rule -/

/-- The set of kinds returned by `AppliesTo`. -/
def AppliesTo : List String := ["Deployment", "ReplicaSet"]

/-- The expression `reflect.ValueOf(obj).FieldByName("Spec").FieldByName("Replicas").Elem().Int()`.
`FieldByName` panics on the zero `Value` of a nil interface, and `Int` panics on
the zero `Value` that `Elem` gives for a nil pointer. -/
def replicaCnt : Obj → Option Int
  | .nil => none
  | .Deployment d => d.Replicas
  | .ReplicaSet r => r.Replicas

/-- The containers of
`reflect.ValueOf(obj).FieldByName("Spec").FieldByName("Template").Interface().(v1.PodTemplateSpec)`. -/
def podTemplateContainers : Obj → Option (List Container)
  | .nil => none
  | .Deployment d => some d.Containers
  | .ReplicaSet r => some r.Containers

/-- The condition of the `if` inside the loop over the containers. -/
def lacksRequestOrLimit (c : Container) : Bool :=
  c.Resources.Requests.Memory.IsZero || c.Resources.Requests.Cpu.IsZero ||
    c.Resources.Limits.Memory.IsZero || c.Resources.Limits.Cpu.IsZero

/-- The loop `for _, c := range podTemplateSpec.Spec.Containers`: at the first
container that lacks a request or limit the gauge is set to 1 and the function
returns; after every other container the gauge is set to 0. -/
def validateContainers (m : GaugeVec) (promLabels : Labels) : List Container → GaugeVec
  | [] => m
  | c :: cs =>
    if lacksRequestOrLimit c then
      m.Set promLabels 1
    else
      validateContainers (m.Set promLabels 0) promLabels cs

/-- The method `RequestLimitValidation.Validate`, as a function of the gauge state
before the call.  The result is `none` when the call panics. -/
def Validate (m : GaugeVec) (request : Request) (kind : String) (obj : Obj)
    (isDeleted : Bool) : Option GaugeVec :=
  let promLabels := getPromLabels request.Name request.Namespace kind
  if isDeleted then
    some (m.Delete promLabels)
  else
    match replicaCnt obj with
    | none => none
    | some cnt =>
      if cnt > 0 then
        match podTemplateContainers obj with
        | none => none
        | some containers => some (validateContainers m promLabels containers)
      else
        some m

/-! ## Sequences of calls -/

/-- The arguments of one `Validate` call. -/
structure Call where
  request : Request
  kind : String
  obj : Obj
  isDeleted : Bool
  deriving DecidableEq, Repr

/-- The label set a call addresses. -/
def Call.labels (c : Call) : Labels :=
  getPromLabels c.request.Name c.request.Namespace c.kind

/-- Run `Validate` for each call in turn; a panic ends the run. -/
def runCalls (m : GaugeVec) : List Call → Option GaugeVec
  | [] => some m
  | c :: cs =>
    match Validate m c.request c.kind c.obj c.isDeleted with
    | none => none
    | some m' => runCalls m' cs

/-! ## The sweep -/

/-- The two list objects of the sweep, `&appsv1.DeploymentList{}` and
`&appsv1.ReplicaSetList{}`. -/
inductive ListObj where
  | DeploymentList
  | ReplicaSetList
  deriving DecidableEq, Repr

/-- What one `kubeClient.List` call leaves behind: the `Items` it stored in the
freshly allocated list object and the error it returned (`none` for a nil
error). -/
structure ListOutcome where
  Items : List Workload
  err : Option String
  deriving DecidableEq, Repr

/-- The `client.Client` of a static cluster: the outcome of listing each kind in
all namespaces. -/
structure Client where
  List : ListObj → ListOutcome

/-- The slice `listObjs` of the sweep, in its order. -/
def listObjs : List ListObj := [.DeploymentList, .ReplicaSetList]

/-- An element of `Items` as the interface value `items.Index(i).Interface()`. -/
def ListObj.item : ListObj → Workload → Obj
  | .DeploymentList, w => .Deployment w
  | .ReplicaSetList, w => .ReplicaSet w

/-- The string `reflect.TypeOf(objInterface).String()` for an element of `Items`:
the type name qualified by its package name, which is `v1` for
`k8s.io/api/apps/v1`. -/
def ListObj.itemKind : ListObj → String
  | .DeploymentList => "v1.Deployment"
  | .ReplicaSetList => "v1.ReplicaSet"

/-- The inner loop `for i := 0; i < items.Len(); i++` of the sweep. -/
def validateItems (m : GaugeVec) (listObj : ListObj) : List Workload → Option GaugeVec
  | [] => some m
  | w :: ws =>
    match Validate m { Namespace := w.Namespace, Name := w.Name } listObj.itemKind
        (listObj.item w) false with
    | none => none
    | some m' => validateItems m' listObj ws

/-- The outer loop `for _, listObj := range listObjs`: the error of `List` is
logged and the items of the list object are validated whatever it was. -/
def validateLists (m : GaugeVec) (kubeClient : Client) : List ListObj → Option GaugeVec
  | [] => some m
  | listObj :: rest =>
    match validateItems m listObj (kubeClient.List listObj).Items with
    | none => none
    | some m' => validateLists m' kubeClient rest

/-- The method `RequestLimitValidation.ValidateWithClient`, as a function of the
gauge state before the sweep.  The result is `none` when a `Validate` call
panics. -/
def ValidateWithClient (m : GaugeVec) (kubeClient : Client) : Option GaugeVec :=
  validateLists m kubeClient listObjs

/-- The `Validate` call the sweep makes for one element of `Items`. -/
def ListObj.call (listObj : ListObj) (w : Workload) : Call :=
  { request := { Namespace := w.Namespace, Name := w.Name }
    kind := listObj.itemKind
    obj := listObj.item w
    isDeleted := false }

/-- The `Validate` calls of one sweep, in order, when none of them panics. -/
def sweepCalls (kubeClient : Client) : List Call :=
  listObjs.flatMap fun listObj => (kubeClient.List listObj).Items.map listObj.call

/-! ## The gauge operations of a call -/

/-- One operation issued on the gauge vector. -/
inductive GaugeOp where
  | Set (labels : Labels) (v : Int)
  | Delete (labels : Labels)
  deriving DecidableEq, Repr

/-- The label set an operation addresses. -/
def GaugeOp.labels : GaugeOp → Labels
  | .Set l _ => l
  | .Delete l => l

/-- The effect of one operation on the gauge state. -/
def GaugeVec.applyOp (m : GaugeVec) : GaugeOp → GaugeVec
  | .Set l v => m.Set l v
  | .Delete l => m.Delete l

/-- The effect of a sequence of operations, issued from left to right. -/
def GaugeVec.applyOps (m : GaugeVec) (ops : List GaugeOp) : GaugeVec :=
  ops.foldl GaugeVec.applyOp m

/-- The operations the loop over the containers issues, in order: `Set(0)` after each
container that has its requests and limits, `Set(1)` and return at the first one that
lacks any. -/
def containerOps (promLabels : Labels) : List Container → List GaugeOp
  | [] => []
  | c :: cs =>
    if lacksRequestOrLimit c then
      [.Set promLabels 1]
    else
      .Set promLabels 0 :: containerOps promLabels cs

/-- The gauge operations one `Validate` call issues, in order; `none` when the call
panics (every panic of the function precedes its first gauge operation). -/
def ValidateOps (request : Request) (kind : String) (obj : Obj) (isDeleted : Bool) :
    Option (List GaugeOp) :=
  let promLabels := getPromLabels request.Name request.Namespace kind
  if isDeleted then
    some [.Delete promLabels]
  else
    match replicaCnt obj with
    | none => none
    | some cnt =>
      if cnt > 0 then
        match podTemplateContainers obj with
        | none => none
        | some containers => some (containerOps promLabels containers)
      else
        some []

/-- The gauge operations of a run of calls; `none` when one of the calls panics. -/
def runOps : List Call → Option (List GaugeOp)
  | [] => some []
  | c :: cs =>
    match ValidateOps c.request c.kind c.obj c.isDeleted with
    | none => none
    | some ops =>
      match runOps cs with
      | none => none
      | some rest => some (ops ++ rest)

/-! ## Construction and registration of the rule -/

/-- The `*prometheus.GaugeVec` a successful `newGaugeVecMetric` returns, by the
arguments it was made from. -/
structure Metric where
  name : String
  help : String
  labelNames : List String
  deriving DecidableEq, Repr

/-- The struct `RequestLimitValidation`; its `ctx` is always `context.TODO()`. -/
structure RequestLimitValidation where
  metric : Metric
  deriving DecidableEq, Repr

/-- The collaborators of the constructor.  `newGaugeVecMetric` is a helper of the
package that is not part of the file: it is a parameter, returning a gauge or an
error.  `Register` is `metrics.Registry.Register`: the error it returns for a
collector, if any (for instance when a collector of the same name is already
registered). -/
structure Startup where
  newGaugeVecMetric : String → String → List String → Except String Metric
  Register : Metric → Option String

/-- How a call ends: it returns a value, or it panics with a value. -/
inductive Outcome (α : Type) where
  | returned (a : α)
  | panicked (v : String)
  deriving DecidableEq, Repr

/-- The process state `init` acts on: the lines printed on standard output and the
process-wide collection of registered validations. -/
structure Process where
  stdout : List String
  validations : List RequestLimitValidation
  deriving DecidableEq, Repr

/-- The function `newRequestLimitValidation`.  `MustRegister` panics with the error
`Register` returns. -/
def newRequestLimitValidation (env : Startup) :
    Outcome (Except String RequestLimitValidation) :=
  match env.newGaugeVecMetric "request_limit_validation"
      "resource does not have requests or limits." ["namespace", "name", "kind"] with
  | .error err => .returned (.error err)
  | .ok m =>
    match env.Register m with
    | some err => .panicked err
    | none => .returned (.ok { metric := m })

/-- Modelled from the spec: `AddValidation` is not part of the file; registering
"appends a rule to process-wide state". -/
def AddValidation (p : Process) (validation : RequestLimitValidation) : Process :=
  { p with validations := p.validations ++ [validation] }

/-- The package function `init`: a constructor error is printed and the rule is
not added; otherwise the rule is added. -/
def init (env : Startup) (p : Process) : Outcome Process :=
  match newRequestLimitValidation env with
  | .panicked v => .panicked v
  | .returned (.error err) =>
    .returned { p with stdout := p.stdout ++ ["failed to add RequestLimitValidation: " ++ err] }
  | .returned (.ok validation) => .returned (AddValidation p validation)

/-! ## The words of the specification -/

/-- A quantity is "set" iff present and non-zero. -/
def quantitySet (rl : ResourceList) (name : String) : Bool :=
  match rl.lookup name with
  | some q => q.value != 0
  | none => false

/-- A container "specifies all four non-zero resource quantities". -/
def fullySpecified (c : Container) : Bool :=
  quantitySet c.Resources.Requests "memory" && quantitySet c.Resources.Requests "cpu" &&
    quantitySet c.Resources.Limits "memory" && quantitySet c.Resources.Limits "cpu"

/-- The kind name under which the event path identifies the elements of a list:
the name declared in `AppliesTo`. -/
def ListObj.declaredKind : ListObj → String
  | .DeploymentList => "Deployment"
  | .ReplicaSetList => "ReplicaSet"

/-- The non-deleted event for one instance, with the identity of the event path: its
namespace, its name and its declared kind. -/
def ListObj.eventCall (listObj : ListObj) (w : Workload) : Call :=
  { request := { Namespace := w.Namespace, Name := w.Name }
    kind := listObj.declaredKind
    obj := listObj.item w
    isDeleted := false }

/-- The client that answers one listing with `out` and every other as
`kubeClient` does. -/
def Client.withOutcome (kubeClient : Client) (listObj : ListObj) (out : ListOutcome) : Client :=
  { List := fun k => if k = listObj then out else kubeClient.List k }

/-- The value the specification expects for an evaluated instance: 1 if some
container lacks a non-zero request or limit, 0 otherwise. -/
def expectedValue (w : Workload) : Int :=
  if w.Containers.all fullySpecified then 0 else 1

/-- The instances of a cluster in the order of the sweep, each with the list object
it comes from. -/
def clusterInstances (kubeClient : Client) : List (ListObj × Workload) :=
  listObjs.flatMap fun listObj => (kubeClient.List listObj).Items.map fun w => (listObj, w)

/-- The label set under which the sweep evaluates an instance. -/
def sweepLabels (p : ListObj × Workload) : Labels :=
  getPromLabels p.2.Name p.2.Namespace p.1.itemKind

/-! ## Sample data -/

/-- The resources of scenario 1: 100m/128Mi requested, 200m/256Mi allowed (CPU in
millicores, memory in bytes). -/
def sampleResources : ResourceRequirements :=
  { Limits := [("cpu", ⟨200⟩), ("memory", ⟨268435456⟩)]
    Requests := [("cpu", ⟨100⟩), ("memory", ⟨134217728⟩)] }

/-- The container of scenario 1. -/
def sampleContainer : Container := { Name := "app", Resources := sampleResources }

/-- The container of scenario 2: no CPU limit. -/
def sampleContainerNoCpuLimit : Container :=
  { Name := "app"
    Resources := { sampleResources with Limits := [("memory", ⟨268435456⟩)] } }

/-- The workload of scenario 1. -/
def sampleWeb : Workload :=
  { Namespace := "default", Name := "web", Replicas := some 3, Containers := [sampleContainer] }

/-- The request naming `sampleWeb`. -/
def sampleRequest : Request := { Namespace := "default", Name := "web" }

/-- A cluster with the Deployment `sampleWeb` and no ReplicaSet; both listings
succeed. -/
def sampleClient : Client :=
  { List := fun
      | .DeploymentList => { Items := [sampleWeb], err := none }
      | .ReplicaSetList => { Items := [], err := none } }

/-- The workload of scenario 2. -/
def sampleWebNoCpuLimit : Workload :=
  { sampleWeb with Containers := [sampleContainerNoCpuLimit] }

/-- A Deployment whose second container has no CPU limit. -/
def sampleApi : Workload :=
  { Namespace := "default", Name := "api", Replicas := some 2,
    Containers := [sampleContainer, sampleContainerNoCpuLimit] }

/-- A compliant ReplicaSet. -/
def sampleWebRs : Workload :=
  { Namespace := "default", Name := "web-rs", Replicas := some 1,
    Containers := [sampleContainer] }

/-- The cluster of scenario 5: two Deployments, one compliant and one not, and one
compliant ReplicaSet; both listings succeed. -/
def sampleCluster : Client :=
  { List := fun
      | .DeploymentList => { Items := [sampleWeb, sampleApi], err := none }
      | .ReplicaSetList => { Items := [sampleWebRs], err := none } }

/-- A workload with a negative replica count. -/
def sampleNegative : Workload := { sampleWeb with Replicas := some (-1) }

/-- A start-up in which the gauge is created and the registry refuses it because a
collector of the same name is already registered. -/
def duplicateStartup : Startup :=
  { newGaugeVecMetric := fun name help labelNames =>
      .ok { name := name, help := help, labelNames := labelNames }
    Register := fun _ => some "duplicate metrics collector registration attempted" }

/-- A start-up in which creating the gauge fails. -/
def failingGaugeStartup : Startup :=
  { newGaugeVecMetric := fun _ _ _ => .error "invalid metric name"
    Register := fun _ => none }

/-- A start-up in which the gauge is created and registered. -/
def cleanStartup : Startup :=
  { newGaugeVecMetric := fun name help labelNames =>
      .ok { name := name, help := help, labelNames := labelNames }
    Register := fun _ => none }

/-- A history of `default/web`: a non-compliant evaluation, a deletion event (with a
nil object), a compliant evaluation and an evaluation with zero replicas. -/
def sampleHistory : List Call :=
  [ListObj.eventCall .DeploymentList sampleWebNoCpuLimit,
   { ListObj.eventCall .DeploymentList sampleWeb with obj := .nil, isDeleted := true },
   ListObj.eventCall .DeploymentList sampleWeb,
   ListObj.eventCall .DeploymentList { sampleWeb with Replicas := some 0 }]

/-- A client whose Deployment listing returns an error after it stored one item in
the list object, and whose ReplicaSet listing succeeds with no item. -/
def partialListClient : Client :=
  { List := fun
      | .DeploymentList => { Items := [sampleWebNoCpuLimit], err := some "unexpected EOF" }
      | .ReplicaSetList => { Items := [], err := none } }

/-- A client whose Deployment listing returns an error and stores nothing, and
whose ReplicaSet listing succeeds with one item. -/
def failedListClient : Client :=
  { List := fun
      | .DeploymentList => { Items := [], err := some "context canceled" }
      | .ReplicaSetList => { Items := [sampleWebNoCpuLimit], err := none } }

end Validations

/-! ## Basic facts about the gauge vector and the loop -/

namespace Validations

theorem GaugeVec.Set_same (m : GaugeVec) (l : Labels) (v : Int) : (m.Set l v) l = some v := by
  simp [GaugeVec.Set]

theorem GaugeVec.Set_other (m : GaugeVec) (l l' : Labels) (v : Int) (h : l' ≠ l) :
    (m.Set l v) l' = m l' := by
  simp [GaugeVec.Set, h]

theorem GaugeVec.Set_Set (m : GaugeVec) (l : Labels) (v v' : Int) :
    (m.Set l v).Set l v' = m.Set l v' := by
  funext k
  by_cases h : k = l <;> simp [GaugeVec.Set, h]

theorem GaugeVec.Delete_same (m : GaugeVec) (l : Labels) : (m.Delete l) l = none := by
  simp [GaugeVec.Delete]

theorem GaugeVec.Delete_other (m : GaugeVec) (l l' : Labels) (h : l' ≠ l) :
    (m.Delete l) l' = m l' := by
  simp [GaugeVec.Delete, h]

theorem GaugeVec.Delete_of_absent (m : GaugeVec) (l : Labels) (h : m l = none) :
    m.Delete l = m := by
  funext k
  by_cases hk : k = l
  · subst hk; simp [GaugeVec.Delete, h]
  · simp [GaugeVec.Delete, hk]

theorem GaugeVec.Delete_Delete (m : GaugeVec) (l : Labels) :
    (m.Delete l).Delete l = m.Delete l :=
  GaugeVec.Delete_of_absent _ _ (GaugeVec.Delete_same m l)

/-- The entry read by `Memory` is zero exactly when the quantity is not set. -/
theorem Memory_IsZero (rl : ResourceList) :
    rl.Memory.IsZero = !quantitySet rl "memory" := by
  unfold ResourceList.Memory quantitySet Quantity.IsZero
  cases h : List.lookup "memory" rl <;> simp [bne]

/-- The entry read by `Cpu` is zero exactly when the quantity is not set. -/
theorem Cpu_IsZero (rl : ResourceList) :
    rl.Cpu.IsZero = !quantitySet rl "cpu" := by
  unfold ResourceList.Cpu quantitySet Quantity.IsZero
  cases h : List.lookup "cpu" rl <;> simp [bne]

/-- The condition of the loop is the negation of "all four quantities are set". -/
theorem lacksRequestOrLimit_eq (c : Container) :
    lacksRequestOrLimit c = !fullySpecified c := by
  simp [lacksRequestOrLimit, fullySpecified, Memory_IsZero, Cpu_IsZero, Bool.not_and]

theorem validateContainers_all (m : GaugeVec) (l : Labels) (cs : List Container)
    (hne : cs ≠ []) (hall : ∀ c ∈ cs, lacksRequestOrLimit c = false) :
    validateContainers m l cs = m.Set l 0 := by
  induction cs generalizing m with
  | nil => exact absurd rfl hne
  | cons c cs ih =>
    have hc : lacksRequestOrLimit c = false := hall c (List.mem_cons_self _ _)
    have hrest : ∀ d ∈ cs, lacksRequestOrLimit d = false :=
      fun d hd => hall d (List.mem_cons_of_mem _ hd)
    cases cs with
    | nil => simp [validateContainers, hc]
    | cons d ds =>
      have := ih (m.Set l 0) (by simp) hrest
      rw [validateContainers]
      simp only [hc, Bool.false_eq_true, if_false]
      rw [this, GaugeVec.Set_Set]

theorem validateContainers_some_lacking (m : GaugeVec) (l : Labels) (cs : List Container)
    (hex : ∃ c ∈ cs, lacksRequestOrLimit c = true) :
    validateContainers m l cs = m.Set l 1 := by
  induction cs generalizing m with
  | nil => obtain ⟨c, hc, _⟩ := hex; cases hc
  | cons c cs ih =>
    rw [validateContainers]
    by_cases hc : lacksRequestOrLimit c = true
    · simp [hc]
    · have hrest : ∃ d ∈ cs, lacksRequestOrLimit d = true := by
        obtain ⟨d, hd, hlack⟩ := hex
        rcases List.mem_cons.mp hd with rfl | hd'
        · exact absurd hlack hc
        · exact ⟨d, hd', hlack⟩
      have hc' : lacksRequestOrLimit c = false := by simpa using hc
      simp only [hc', Bool.false_eq_true, if_false]
      rw [ih _ hrest, GaugeVec.Set_Set]

/-- Every series after the loop is either the one the loop wrote, with value 0 or 1,
or a series that was there before with the same value. -/
theorem validateContainers_lookup (m : GaugeVec) (l : Labels) (cs : List Container)
    (k : Labels) (v : Int) (h : validateContainers m l cs k = some v) :
    (k = l ∧ cs ≠ [] ∧ (v = 0 ∨ v = 1)) ∨ m k = some v := by
  induction cs generalizing m with
  | nil => exact Or.inr h
  | cons c cs ih =>
    rw [validateContainers] at h
    by_cases hc : lacksRequestOrLimit c = true
    · simp only [hc, if_true] at h
      by_cases hk : k = l
      · subst hk
        rw [GaugeVec.Set_same] at h
        exact Or.inl ⟨rfl, by simp, Or.inr (Option.some.inj h).symm⟩
      · rw [GaugeVec.Set_other _ _ _ _ hk] at h
        exact Or.inr h
    · have hc' : lacksRequestOrLimit c = false := by simpa using hc
      simp only [hc', Bool.false_eq_true, if_false] at h
      rcases ih _ h with ⟨hk, _, hv⟩ | hm
      · exact Or.inl ⟨hk, by simp, hv⟩
      · by_cases hk : k = l
        · subst hk
          rw [GaugeVec.Set_same] at hm
          exact Or.inl ⟨rfl, by simp, Or.inl (Option.some.inj hm).symm⟩
        · rw [GaugeVec.Set_other _ _ _ _ hk] at hm
          exact Or.inr hm

theorem validateContainers_other (m : GaugeVec) (l : Labels) (cs : List Container)
    (k : Labels) (hk : k ≠ l) : validateContainers m l cs k = m k := by
  induction cs generalizing m with
  | nil => rfl
  | cons c cs ih =>
    rw [validateContainers]
    by_cases hc : lacksRequestOrLimit c = true
    · simp only [hc, if_true]; exact GaugeVec.Set_other _ _ _ _ hk
    · have hc' : lacksRequestOrLimit c = false := by simpa using hc
      simp only [hc', Bool.false_eq_true, if_false]
      rw [ih, GaugeVec.Set_other _ _ _ _ hk]

/-- A non-deleted call on a Deployment or ReplicaSet with a positive replica count
returns the state the loop over its containers leaves. -/
theorem Validate_positive (m : GaugeVec) (request : Request) (kind : String) (obj : Obj)
    (w : Workload) (n : Int) (hobj : obj = .Deployment w ∨ obj = .ReplicaSet w)
    (hrep : w.Replicas = some n) (hpos : 0 < n) :
    Validate m request kind obj false =
      some (validateContainers m (getPromLabels request.Name request.Namespace kind)
        w.Containers) := by
  rcases hobj with rfl | rfl <;>
    simp [Validate, replicaCnt, podTemplateContainers, hrep, hpos]

end Validations

/-! ## The per-object evaluation -/

namespace Validations

/-- C1: for every gauge state, identity and non-deleted Deployment or ReplicaSet with
a positive replica count and at least one container, when every container has all
four quantities set the call returns and the series of the identity has value 0
afterwards, whatever it was before. -/
theorem Validate_fully_specified_sets_zero (m : GaugeVec) (request : Request) (kind : String)
    (obj : Obj) (w : Workload) (n : Int)
    (hobj : obj = .Deployment w ∨ obj = .ReplicaSet w)
    (hrep : w.Replicas = some n) (hpos : 0 < n) (hne : w.Containers ≠ [])
    (hall : ∀ c ∈ w.Containers,
      quantitySet c.Resources.Requests "memory" = true ∧
      quantitySet c.Resources.Requests "cpu" = true ∧
      quantitySet c.Resources.Limits "memory" = true ∧
      quantitySet c.Resources.Limits "cpu" = true) :
    ∃ m', Validate m request kind obj false = some m' ∧
      m' (getPromLabels request.Name request.Namespace kind) = some 0 := by
  refine ⟨_, Validate_positive m request kind obj w n hobj hrep hpos, ?_⟩
  have hall' : ∀ c ∈ w.Containers, lacksRequestOrLimit c = false := by
    intro c hc
    obtain ⟨h1, h2, h3, h4⟩ := hall c hc
    simp [lacksRequestOrLimit_eq, fullySpecified, h1, h2, h3, h4]
  rw [validateContainers_all _ _ _ hne hall']
  exact GaugeVec.Set_same _ _ _

/-- Scenario 1 on a series that was at 1: the call overwrites it with 0. -/
theorem Validate_fully_specified_sets_zero_witness :
    ∃ m', Validate (GaugeVec.empty.Set (getPromLabels "web" "default" "Deployment") 1)
        sampleRequest "Deployment" (.Deployment sampleWeb) false = some m' ∧
      m' (getPromLabels sampleRequest.Name sampleRequest.Namespace "Deployment") = some 0 :=
  Validate_fully_specified_sets_zero _ sampleRequest "Deployment" (.Deployment sampleWeb)
    sampleWeb 3 (Or.inl rfl) rfl (by decide) (by decide) (by decide)

/-- C2: for every gauge state and non-deleted Deployment or ReplicaSet with a positive
replica count, when some container, at any position, has one of the four quantities
absent or zero the call returns and the series of the identity has value 1
afterwards. -/
theorem Validate_lacking_container_sets_one (m : GaugeVec) (request : Request) (kind : String)
    (obj : Obj) (w : Workload) (n : Int)
    (hobj : obj = .Deployment w ∨ obj = .ReplicaSet w)
    (hrep : w.Replicas = some n) (hpos : 0 < n)
    (hex : ∃ c ∈ w.Containers,
      quantitySet c.Resources.Requests "memory" = false ∨
      quantitySet c.Resources.Requests "cpu" = false ∨
      quantitySet c.Resources.Limits "memory" = false ∨
      quantitySet c.Resources.Limits "cpu" = false) :
    ∃ m', Validate m request kind obj false = some m' ∧
      m' (getPromLabels request.Name request.Namespace kind) = some 1 := by
  refine ⟨_, Validate_positive m request kind obj w n hobj hrep hpos, ?_⟩
  have hex' : ∃ c ∈ w.Containers, lacksRequestOrLimit c = true := by
    obtain ⟨c, hc, h⟩ := hex
    refine ⟨c, hc, ?_⟩
    rcases h with h | h | h | h <;> simp [lacksRequestOrLimit_eq, fullySpecified, h]
  rw [validateContainers_some_lacking _ _ _ hex']
  exact GaugeVec.Set_same _ _ _

/-- A workload whose second container of three has no CPU limit, on a series that
was at 0: the call leaves 1. -/
theorem Validate_lacking_container_sets_one_witness :
    ∃ m', Validate (GaugeVec.empty.Set (getPromLabels "web" "default" "Deployment") 0)
        sampleRequest "Deployment"
        (.Deployment { sampleWeb with
          Containers := [sampleContainer, sampleContainerNoCpuLimit, sampleContainer] })
        false = some m' ∧
      m' (getPromLabels sampleRequest.Name sampleRequest.Namespace "Deployment") = some 1 :=
  Validate_lacking_container_sets_one _ sampleRequest "Deployment" _
    { sampleWeb with
      Containers := [sampleContainer, sampleContainerNoCpuLimit, sampleContainer] }
    3 (Or.inl rfl) rfl (by decide)
    ⟨sampleContainerNoCpuLimit, by decide, by decide⟩

/-- C3, as stated, fails: from the empty gauge state a Deployment with three replicas
and no container leaves the gauge state empty, so no series with value 0 exists. -/
theorem Validate_no_container_counterexample :
    Validate GaugeVec.empty sampleRequest "Deployment"
        (.Deployment { sampleWeb with Containers := [] }) false = some GaugeVec.empty ∧
      ¬ ∃ m', Validate GaugeVec.empty sampleRequest "Deployment"
          (.Deployment { sampleWeb with Containers := [] }) false = some m' ∧
        m' (getPromLabels sampleRequest.Name sampleRequest.Namespace "Deployment") = some 0 := by
  have h : Validate GaugeVec.empty sampleRequest "Deployment"
      (.Deployment { sampleWeb with Containers := [] }) false = some GaugeVec.empty := by
    simp [Validate, replicaCnt, podTemplateContainers, sampleWeb, validateContainers]
  refine ⟨h, ?_⟩
  rintro ⟨m', hm', h0⟩
  rw [h] at hm'
  cases hm'
  simp [GaugeVec.empty] at h0

/-- C3, amended: for every gauge state and non-deleted Deployment or ReplicaSet with a
positive replica count and an empty container list, the call returns and performs
no gauge write: the state after it is the state before it. -/
theorem Validate_no_container_unchanged (m : GaugeVec) (request : Request) (kind : String)
    (obj : Obj) (w : Workload) (n : Int)
    (hobj : obj = .Deployment w ∨ obj = .ReplicaSet w)
    (hrep : w.Replicas = some n) (hpos : 0 < n) (hempty : w.Containers = []) :
    Validate m request kind obj false = some m := by
  rw [Validate_positive m request kind obj w n hobj hrep hpos, hempty]
  rfl

/-- A ReplicaSet with one replica and no container, on a series that was at 1: the
series is still at 1 after the call. -/
theorem Validate_no_container_unchanged_witness :
    Validate (GaugeVec.empty.Set (getPromLabels "web" "default" "ReplicaSet") 1)
        sampleRequest "ReplicaSet"
        (.ReplicaSet { sampleWeb with Replicas := some 1, Containers := [] }) false =
      some (GaugeVec.empty.Set (getPromLabels "web" "default" "ReplicaSet") 1) :=
  Validate_no_container_unchanged _ sampleRequest "ReplicaSet" _
    { sampleWeb with Replicas := some 1, Containers := [] } 1 (Or.inr rfl) rfl (by decide) rfl

/-- C4: for every gauge state and non-deleted Deployment or ReplicaSet with replica
count 0, the call returns and the whole gauge state is the same as before,
whatever the containers are. -/
theorem Validate_zero_replicas_unchanged (m : GaugeVec) (request : Request) (kind : String)
    (obj : Obj) (w : Workload)
    (hobj : obj = .Deployment w ∨ obj = .ReplicaSet w) (hrep : w.Replicas = some 0) :
    Validate m request kind obj false = some m := by
  rcases hobj with rfl | rfl <;> simp [Validate, replicaCnt, hrep]

/-- Scenario 3, with a container that lacks a CPU limit: nothing is written. -/
theorem Validate_zero_replicas_unchanged_witness :
    Validate GaugeVec.empty { Namespace := "default", Name := "web-rs" } "ReplicaSet"
        (.ReplicaSet { Namespace := "default", Name := "web-rs", Replicas := some 0,
                       Containers := [sampleContainerNoCpuLimit] }) false =
      some GaugeVec.empty :=
  Validate_zero_replicas_unchanged _ _ "ReplicaSet" _
    { Namespace := "default", Name := "web-rs", Replicas := some 0,
      Containers := [sampleContainerNoCpuLimit] } (Or.inr rfl) rfl

/-- C5: a call with the deleted flag returns the state with the series of the identity
removed, whatever the object is (the nil object included); the series is absent
afterwards; on a state without the series the call changes nothing; and a second
deletion leaves the state of the first. -/
theorem Validate_deleted_removes_series (m : GaugeVec) (request : Request) (kind : String)
    (obj obj' : Obj) :
    Validate m request kind obj true =
        some (m.Delete (getPromLabels request.Name request.Namespace kind)) ∧
      Validate m request kind .nil true = Validate m request kind obj true ∧
      (m.Delete (getPromLabels request.Name request.Namespace kind))
        (getPromLabels request.Name request.Namespace kind) = none ∧
      (m (getPromLabels request.Name request.Namespace kind) = none →
        Validate m request kind obj true = some m) ∧
      Validate (m.Delete (getPromLabels request.Name request.Namespace kind))
          request kind obj' true =
        some (m.Delete (getPromLabels request.Name request.Namespace kind)) := by
  refine ⟨by simp [Validate], by simp [Validate], GaugeVec.Delete_same _ _, ?_, ?_⟩
  · intro h
    simp [Validate, GaugeVec.Delete_of_absent _ _ h]
  · simp [Validate, GaugeVec.Delete_Delete]

end Validations

/-! ## Runs of calls and the sweep -/

namespace Validations

theorem runCalls_append (m : GaugeVec) (xs ys : List Call) :
    runCalls m (xs ++ ys) = (runCalls m xs).bind fun m' => runCalls m' ys := by
  induction xs generalizing m with
  | nil => rfl
  | cons c cs ih =>
    simp only [List.cons_append, runCalls]
    cases Validate m c.request c.kind c.obj c.isDeleted with
    | none => rfl
    | some m' => exact ih m'

theorem validateItems_eq_runCalls (m : GaugeVec) (listObj : ListObj) (ws : List Workload) :
    validateItems m listObj ws = runCalls m (ws.map listObj.call) := by
  induction ws generalizing m with
  | nil => rfl
  | cons w ws ih =>
    simp only [validateItems, List.map_cons, runCalls, ListObj.call]
    cases Validate m { Namespace := w.Namespace, Name := w.Name } listObj.itemKind
        (listObj.item w) false with
    | none => rfl
    | some m' => exact ih m'

theorem validateLists_eq_runCalls (m : GaugeVec) (kubeClient : Client) (los : List ListObj) :
    validateLists m kubeClient los =
      runCalls m (los.flatMap fun listObj => (kubeClient.List listObj).Items.map listObj.call) := by
  induction los generalizing m with
  | nil => rfl
  | cons lo los ih =>
    simp only [validateLists, List.flatMap_cons, runCalls_append, validateItems_eq_runCalls]
    cases runCalls m ((kubeClient.List lo).Items.map lo.call) with
    | none => rfl
    | some m' => exact ih m'

/-- The sweep is the run of its calls. -/
theorem ValidateWithClient_eq_runCalls (m : GaugeVec) (kubeClient : Client) :
    ValidateWithClient m kubeClient = runCalls m (sweepCalls kubeClient) :=
  validateLists_eq_runCalls m kubeClient listObjs

/-- The sweep reads only the items of each listing, never its error. -/
theorem ValidateWithClient_congr (m : GaugeVec) (c c' : Client)
    (h : ∀ listObj, (c.List listObj).Items = (c'.List listObj).Items) :
    ValidateWithClient m c = ValidateWithClient m c' := by
  simp only [ValidateWithClient, listObjs, validateLists, h]

/-- What a returning call leaves in a series: the value it had, unless the call
deleted it; or a 0 or 1 written by a non-deleted call for that very identity on an
object with a positive replica count. -/
theorem Validate_lookup (m m' : GaugeVec) (request : Request) (kind : String) (obj : Obj)
    (isDeleted : Bool) (h : Validate m request kind obj isDeleted = some m')
    (k : Labels) (v : Int) (hk : m' k = some v) :
    (m k = some v ∧ (k = getPromLabels request.Name request.Namespace kind → isDeleted = false)) ∨
    (k = getPromLabels request.Name request.Namespace kind ∧ isDeleted = false ∧
      (v = 0 ∨ v = 1) ∧ ∃ n, replicaCnt obj = some n ∧ 0 < n) := by
  unfold Validate at h
  cases isDeleted with
  | true =>
    simp only [if_true, Option.some.injEq] at h
    subst h
    by_cases hkl : k = getPromLabels request.Name request.Namespace kind
    · rw [hkl, GaugeVec.Delete_same] at hk; cases hk
    · rw [GaugeVec.Delete_other _ _ _ hkl] at hk
      exact Or.inl ⟨hk, fun hkl' => absurd hkl' hkl⟩
  | false =>
    simp only [Bool.false_eq_true, if_false] at h
    cases hr : replicaCnt obj with
    | none => simp [hr] at h
    | some n =>
      simp only [hr] at h
      by_cases hn : n > 0
      · simp only [hn, if_true] at h
        cases hp : podTemplateContainers obj with
        | none => simp [hp] at h
        | some cs =>
          simp only [hp, Option.some.injEq] at h
          subst h
          rcases validateContainers_lookup _ _ _ _ _ hk with ⟨hkl, _, hv⟩ | hm
          · exact Or.inr ⟨hkl, rfl, hv, n, rfl, hn⟩
          · exact Or.inl ⟨hm, fun _ => rfl⟩
      · simp only [hn, if_false, Option.some.injEq] at h
        subst h
        exact Or.inl ⟨hk, fun _ => rfl⟩

end Validations

/-! ## The sweep against the event path, panics, and the life of a series -/

namespace Validations

/-- C6, at a failing input: over a cluster with the single Deployment `default/web`
(three replicas, one fully specified container) the sweep from the empty state
returns a state with a series under kind `v1.Deployment` and none under
`Deployment`, whereas the event of the event path leaves a series of value 0 under
`Deployment`; the two final states differ. -/
theorem ValidateWithClient_differs_from_event_replay :
    ∃ ms me, ValidateWithClient GaugeVec.empty sampleClient = some ms ∧
      runCalls GaugeVec.empty [ListObj.eventCall .DeploymentList sampleWeb] = some me ∧
      me (getPromLabels "web" "default" "Deployment") = some 0 ∧
      ms (getPromLabels "web" "default" "Deployment") = none ∧
      ms (getPromLabels "web" "default" "v1.Deployment") = some 0 ∧
      ms ≠ me := by
  refine ⟨GaugeVec.empty.Set (getPromLabels "web" "default" "v1.Deployment") 0,
    GaugeVec.empty.Set (getPromLabels "web" "default" "Deployment") 0, ?_, ?_,
    by decide, by decide, by decide, ?_⟩
  · rfl
  · rfl
  · intro h
    have := congrFun h (getPromLabels "web" "default" "Deployment")
    revert this
    decide

/-- C7, at a failing input: the one `Validate` call of the sweep over the cluster with
the single Deployment `default/web` passes the kind `v1.Deployment`, which is not
in the set `AppliesTo` returns. -/
theorem sweepCalls_kind_not_in_AppliesTo :
    sweepCalls sampleClient =
        [{ request := sampleRequest, kind := "v1.Deployment", obj := .Deployment sampleWeb,
           isDeleted := false }] ∧
      ValidateWithClient GaugeVec.empty sampleClient =
        Validate GaugeVec.empty sampleRequest "v1.Deployment" (.Deployment sampleWeb) false ∧
      "v1.Deployment" ∉ AppliesTo ∧
      ∀ listObj : ListObj, listObj.itemKind ∉ AppliesTo := by
  refine ⟨by decide, rfl, by decide, ?_⟩
  intro listObj
  cases listObj <;> decide

/-- C8, at the failing inputs: a non-deleted call on a Deployment or a ReplicaSet whose
`Spec.Replicas` is the nil pointer panics, whatever the gauge state, the identity
and the other fields are. -/
theorem Validate_nil_replicas_panics (m : GaugeVec) (request : Request) (kind : String)
    (w : Workload) :
    Validate m request kind (.Deployment { w with Replicas := none }) false = none ∧
      Validate m request kind (.ReplicaSet { w with Replicas := none }) false = none := by
  constructor <;> simp [Validate, replicaCnt]

/-- C9: in the state reached from the empty gauge state by any sequence of returning
calls, every series has value 0 or 1, and for every series there is a non-deleted
call for its identity, on an object with a positive replica count, after which the
sequence holds no deletion for that identity. -/
theorem runCalls_series_justified (calls : List Call) (s : GaugeVec)
    (hrun : runCalls GaugeVec.empty calls = some s) (l : Labels) (v : Int)
    (hl : s l = some v) :
    (v = 0 ∨ v = 1) ∧
      ∃ pre c post, calls = pre ++ c :: post ∧ c.labels = l ∧ c.isDeleted = false ∧
        (∃ n, replicaCnt c.obj = some n ∧ 0 < n) ∧
        ∀ d ∈ post, d.labels = l → d.isDeleted = false := by
  induction calls using List.reverseRecOn generalizing s l v with
  | nil =>
    simp only [runCalls, Option.some.injEq] at hrun
    subst hrun
    simp [GaugeVec.empty] at hl
  | append_singleton cs c ih =>
    rw [runCalls_append] at hrun
    cases hcs : runCalls GaugeVec.empty cs with
    | none => simp [hcs] at hrun
    | some s0 =>
      simp only [hcs, Option.some_bind, runCalls] at hrun
      cases hv : Validate s0 c.request c.kind c.obj c.isDeleted with
      | none => simp [hv] at hrun
      | some s1 =>
        simp only [hv, Option.some.injEq] at hrun
        subst hrun
        rcases Validate_lookup _ _ _ _ _ _ hv l v hl with ⟨hm, hdel⟩ | ⟨hkl, hdel, hv01, hn⟩
        · obtain ⟨h01, pre, c0, post, hsplit, hlab, hnd, hrep, hpost⟩ := ih s0 hcs l v hm
          refine ⟨h01, pre, c0, post ++ [c], ?_, hlab, hnd, hrep, ?_⟩
          · simp [hsplit]
          · intro d hd hdl
            rcases List.mem_append.mp hd with hd | hd
            · exact hpost d hd hdl
            · rw [List.mem_singleton] at hd
              subst hd
              exact hdel hdl.symm
        · exact ⟨hv01, cs, c, [], rfl, hkl.symm, hdel, hn, by simp⟩

/-- The history `sampleHistory` ends with the series of `default/web` at 0, justified
by its third call. -/
theorem runCalls_series_justified_witness :
    ((0 : Int) = 0 ∨ (0 : Int) = 1) ∧
      ∃ pre c post, sampleHistory = pre ++ c :: post ∧
        c.labels = getPromLabels "web" "default" "Deployment" ∧ c.isDeleted = false ∧
        (∃ n, replicaCnt c.obj = some n ∧ 0 < n) ∧
        ∀ d ∈ post, d.labels = getPromLabels "web" "default" "Deployment" →
          d.isDeleted = false :=
  runCalls_series_justified sampleHistory
    (((GaugeVec.empty.Set (getPromLabels "web" "default" "Deployment") 1).Delete
      (getPromLabels "web" "default" "Deployment")).Set
      (getPromLabels "web" "default" "Deployment") 0)
    rfl (getPromLabels "web" "default" "Deployment") 0 (by decide)

end Validations

/-! ## Listing failures -/

namespace Validations

theorem ListObj.call_kind (listObj : ListObj) (w : Workload) :
    (listObj.call w).kind = listObj.itemKind := rfl

theorem ListObj.itemKind_injective (k k' : ListObj) (h : k.itemKind = k'.itemKind) : k = k' := by
  cases k <;> cases k' <;> first | rfl | (revert h; decide)

theorem mem_sweepCalls (kubeClient : Client) (c : Call) :
    c ∈ sweepCalls kubeClient ↔
      ∃ k : ListObj, ∃ w ∈ (kubeClient.List k).Items, k.call w = c := by
  simp only [sweepCalls, listObjs, List.mem_flatMap, List.mem_map]
  constructor
  · rintro ⟨k, _, w, hw, rfl⟩
    exact ⟨k, w, hw, rfl⟩
  · rintro ⟨k, w, hw, rfl⟩
    refine ⟨k, ?_, w, hw, rfl⟩
    cases k <;> simp

/-- C10, as stated, fails: when the Deployment listing returns an error after the
client stored a Deployment in the list object, the sweep still calls `Validate`
for that Deployment and its final state has the series of that Deployment at 1,
which the sweep with a successful empty Deployment listing does not create. -/
theorem ValidateWithClient_failed_listing_counterexample :
    (partialListClient.List .DeploymentList).err = some "unexpected EOF" ∧
      ListObj.call .DeploymentList sampleWebNoCpuLimit ∈ sweepCalls partialListClient ∧
      (ValidateWithClient GaugeVec.empty partialListClient).map
          (fun m => m (getPromLabels "web" "default" "v1.Deployment")) = some (some 1) ∧
      (ValidateWithClient GaugeVec.empty
          (partialListClient.withOutcome .DeploymentList { Items := [], err := none })).map
          (fun m => m (getPromLabels "web" "default" "v1.Deployment")) = some none ∧
      ValidateWithClient GaugeVec.empty partialListClient ≠
        ValidateWithClient GaugeVec.empty
          (partialListClient.withOutcome .DeploymentList { Items := [], err := none }) := by
  have h1 : (ValidateWithClient GaugeVec.empty partialListClient).map
      (fun m => m (getPromLabels "web" "default" "v1.Deployment")) = some (some 1) := by decide
  have h2 : (ValidateWithClient GaugeVec.empty
      (partialListClient.withOutcome .DeploymentList { Items := [], err := none })).map
      (fun m => m (getPromLabels "web" "default" "v1.Deployment")) = some none := by decide
  refine ⟨rfl, by decide, h1, h2, ?_⟩
  intro h
  rw [h, h2] at h1
  cases h1

/-- C10, amended: a failed listing of one kind is not fatal: the error is only logged
and the sweep goes on as if the listing had succeeded with the items the client
left in the list object, being the run of `Validate`, in order, over the items left
in the Deployment list and then over those left in the ReplicaSet list.  When the
client left the failed list empty, no `Validate` call is made for that kind, the
sweep is exactly the run of `Validate` over the items of the other kind, and it
returns what the sweep returns when that listing succeeds with an empty list. -/
theorem ValidateWithClient_failed_listing (m : GaugeVec) (kubeClient : Client)
    (listObj : ListObj) (e : String) (_herr : (kubeClient.List listObj).err = some e) :
    ValidateWithClient m kubeClient =
        ValidateWithClient m
          (kubeClient.withOutcome listObj
            { Items := (kubeClient.List listObj).Items, err := none }) ∧
      ValidateWithClient m kubeClient =
        runCalls m
          ((kubeClient.List .DeploymentList).Items.map (ListObj.call .DeploymentList) ++
            (kubeClient.List .ReplicaSetList).Items.map (ListObj.call .ReplicaSetList)) ∧
      ((kubeClient.List listObj).Items = [] →
        (∀ c ∈ sweepCalls kubeClient, c.kind ≠ listObj.itemKind) ∧
        ValidateWithClient m kubeClient =
          ValidateWithClient m
            (kubeClient.withOutcome listObj { Items := [], err := none }) ∧
        ∀ other, other ≠ listObj →
          ValidateWithClient m kubeClient =
            runCalls m ((kubeClient.List other).Items.map other.call)) := by
  have hrun : ValidateWithClient m kubeClient =
      runCalls m
        ((kubeClient.List .DeploymentList).Items.map (ListObj.call .DeploymentList) ++
          (kubeClient.List .ReplicaSetList).Items.map (ListObj.call .ReplicaSetList)) := by
    rw [ValidateWithClient_eq_runCalls]
    simp [sweepCalls, listObjs]
  refine ⟨?_, hrun, ?_⟩
  · apply ValidateWithClient_congr
    intro k
    by_cases hk : k = listObj <;> simp [Client.withOutcome, hk]
  · intro hempty
    refine ⟨?_, ?_, ?_⟩
    · intro c hc hkind
      obtain ⟨k, w, hw, rfl⟩ := (mem_sweepCalls kubeClient c).mp hc
      have hk : k = listObj := ListObj.itemKind_injective _ _ hkind
      subst hk
      rw [hempty] at hw
      cases hw
    · apply ValidateWithClient_congr
      intro k
      by_cases hk : k = listObj
      · subst hk; simp [Client.withOutcome, hempty]
      · simp [Client.withOutcome, hk]
    · intro other hother
      rw [hrun]
      cases listObj <;> cases other <;>
        first
          | exact absurd rfl hother
          | simp [hempty]

/-- The Deployment listing fails and stores nothing while the ReplicaSet listing
returns one ReplicaSet without a CPU limit: the sweep returns with the series of that
ReplicaSet at 1, as the sweep with a successful empty Deployment listing does, and
makes no call of kind `v1.Deployment`. -/
theorem ValidateWithClient_failed_listing_witness :
    ValidateWithClient GaugeVec.empty failedListClient =
        some (GaugeVec.empty.Set (getPromLabels "web" "default" "v1.ReplicaSet") 1) ∧
      ValidateWithClient GaugeVec.empty failedListClient =
        ValidateWithClient GaugeVec.empty
          (failedListClient.withOutcome .DeploymentList { Items := [], err := none }) ∧
      (∀ c ∈ sweepCalls failedListClient, c.kind ≠ "v1.Deployment") :=
  ⟨((ValidateWithClient_failed_listing GaugeVec.empty failedListClient .DeploymentList
      "context canceled" rfl).2.2 rfl).2.2 .ReplicaSetList (by decide),
   ((ValidateWithClient_failed_listing GaugeVec.empty failedListClient .DeploymentList
      "context canceled" rfl).2.2 rfl).2.1,
   ((ValidateWithClient_failed_listing GaugeVec.empty failedListClient .DeploymentList
      "context canceled" rfl).2.2 rfl).1⟩

end Validations

/-! ## Gauge operations -/

namespace Validations

theorem GaugeVec.applyOps_nil (m : GaugeVec) : m.applyOps [] = m := rfl

theorem GaugeVec.applyOps_cons (m : GaugeVec) (op : GaugeOp) (ops : List GaugeOp) :
    m.applyOps (op :: ops) = (m.applyOp op).applyOps ops := rfl

theorem GaugeVec.applyOps_append (m : GaugeVec) (xs ys : List GaugeOp) :
    m.applyOps (xs ++ ys) = (m.applyOps xs).applyOps ys := by
  simp [GaugeVec.applyOps, List.foldl_append]

/-- An operation leaves the series of every other label set as it was. -/
theorem GaugeVec.applyOp_other (m : GaugeVec) (op : GaugeOp) (k : Labels)
    (h : k ≠ op.labels) : (m.applyOp op) k = m k := by
  cases op with
  | Set l v => exact GaugeVec.Set_other m l k v h
  | Delete l => exact GaugeVec.Delete_other m l k h

/-- What an operation leaves under its own label set does not depend on the state. -/
theorem GaugeVec.applyOp_same (m m' : GaugeVec) (op : GaugeOp) :
    (m.applyOp op) op.labels = (m'.applyOp op) op.labels := by
  cases op with
  | Set l v => simp [GaugeVec.applyOp, GaugeOp.labels, GaugeVec.Set]
  | Delete l => simp [GaugeVec.applyOp, GaugeOp.labels, GaugeVec.Delete]

/-- Operations leave the series they do not address as they were. -/
theorem GaugeVec.applyOps_other (m : GaugeVec) (ops : List GaugeOp) (k : Labels)
    (h : ∀ op ∈ ops, k ≠ op.labels) : (m.applyOps ops) k = m k := by
  induction ops generalizing m with
  | nil => rfl
  | cons op ops ih =>
    rw [GaugeVec.applyOps_cons, ih _ (fun o ho => h o (List.mem_cons_of_mem _ ho))]
    exact GaugeVec.applyOp_other m op k (h op (List.mem_cons_self _ _))

/-- The state after a sequence of operations depends on the state before it only
through the series no operation addresses. -/
theorem GaugeVec.applyOps_congr (m m' : GaugeVec) (ops : List GaugeOp)
    (h : ∀ k, (∀ op ∈ ops, k ≠ op.labels) → m k = m' k) :
    m.applyOps ops = m'.applyOps ops := by
  induction ops generalizing m m' with
  | nil =>
    funext k
    exact h k (fun _ ho => absurd ho (List.not_mem_nil _))
  | cons op ops ih =>
    rw [GaugeVec.applyOps_cons, GaugeVec.applyOps_cons]
    apply ih
    intro k hk
    by_cases hop : k = op.labels
    · rw [hop]; exact GaugeVec.applyOp_same m m' op
    · rw [GaugeVec.applyOp_other m op k hop, GaugeVec.applyOp_other m' op k hop]
      apply h
      intro o ho
      rcases List.mem_cons.mp ho with rfl | ho'
      · exact hop
      · exact hk o ho'

/-- Issuing a sequence of operations a second time changes nothing. -/
theorem GaugeVec.applyOps_idempotent (m : GaugeVec) (ops : List GaugeOp) :
    (m.applyOps ops).applyOps ops = m.applyOps ops :=
  GaugeVec.applyOps_congr _ _ ops (fun k hk => GaugeVec.applyOps_other m ops k hk)

theorem validateContainers_eq_applyOps (m : GaugeVec) (l : Labels) (cs : List Container) :
    validateContainers m l cs = m.applyOps (containerOps l cs) := by
  induction cs generalizing m with
  | nil => rfl
  | cons c cs ih =>
    rw [validateContainers, containerOps]
    cases hc : lacksRequestOrLimit c with
    | true => rfl
    | false =>
      simp only [Bool.false_eq_true, if_false]
      rw [ih, GaugeVec.applyOps_cons]
      rfl

/-- A call returns exactly when its operations are defined, with the state they
lead to. -/
theorem Validate_eq_applyOps (m : GaugeVec) (request : Request) (kind : String) (obj : Obj)
    (isDeleted : Bool) :
    Validate m request kind obj isDeleted =
      (ValidateOps request kind obj isDeleted).map m.applyOps := by
  unfold Validate ValidateOps
  cases isDeleted with
  | true => rfl
  | false =>
    simp only [Bool.false_eq_true, if_false]
    cases replicaCnt obj with
    | none => rfl
    | some n =>
      by_cases hn : n > 0
      · simp only [hn, if_true]
        cases podTemplateContainers obj with
        | none => rfl
        | some cs => simp [validateContainers_eq_applyOps]
      · simp only [hn, if_false]
        rfl

theorem runCalls_eq_applyOps (m : GaugeVec) (calls : List Call) :
    runCalls m calls = (runOps calls).map m.applyOps := by
  induction calls generalizing m with
  | nil => rfl
  | cons c cs ih =>
    rw [runCalls, runOps, Validate_eq_applyOps]
    cases ValidateOps c.request c.kind c.obj c.isDeleted with
    | none => rfl
    | some ops =>
      simp only [Option.map_some']
      rw [ih]
      cases runOps cs with
      | none => rfl
      | some rest => simp [GaugeVec.applyOps_append]

/-- Running a sequence of calls a second time, from the state the first run
returned, returns that same state; when the first run panics there is no second. -/
theorem runCalls_idempotent (m : GaugeVec) (calls : List Call) :
    (runCalls m calls).bind (fun m' => runCalls m' calls) = runCalls m calls := by
  rw [runCalls_eq_applyOps]
  cases h : runOps calls with
  | none => rfl
  | some ops =>
    simp only [Option.map_some', Option.some_bind]
    rw [runCalls_eq_applyOps, h]
    simp [GaugeVec.applyOps_idempotent]

end Validations

/-! ## The sweep as a whole -/

namespace Validations

/-- C11, at a failing input: from the empty gauge state the sweep over the cluster of
scenario 5 returns a state with exactly three series, of values 0, 1 and 0, one per
instance with its namespace and name; their kind label is `v1.Deployment` or
`v1.ReplicaSet`, and no series exists under the kinds `Deployment` and `ReplicaSet`
of the instances. -/
theorem ValidateWithClient_scenario_five :
    ∃ s, ValidateWithClient GaugeVec.empty sampleCluster = some s ∧
      s (getPromLabels "web" "default" "v1.Deployment") = some 0 ∧
      s (getPromLabels "api" "default" "v1.Deployment") = some 1 ∧
      s (getPromLabels "web-rs" "default" "v1.ReplicaSet") = some 0 ∧
      (∀ l, s l ≠ none →
        l ∈ [getPromLabels "web" "default" "v1.Deployment",
             getPromLabels "api" "default" "v1.Deployment",
             getPromLabels "web-rs" "default" "v1.ReplicaSet"]) ∧
      s (getPromLabels "web" "default" "Deployment") = none ∧
      s (getPromLabels "api" "default" "Deployment") = none ∧
      s (getPromLabels "web-rs" "default" "ReplicaSet") = none := by
  refine ⟨(((GaugeVec.empty.Set (getPromLabels "web" "default" "v1.Deployment") 0).Set
      (getPromLabels "api" "default" "v1.Deployment") 0).Set
      (getPromLabels "api" "default" "v1.Deployment") 1).Set
      (getPromLabels "web-rs" "default" "v1.ReplicaSet") 0,
    rfl, by decide, by decide, by decide, ?_, by decide, by decide, by decide⟩
  intro l hl
  by_cases h3 : l = getPromLabels "web-rs" "default" "v1.ReplicaSet"
  · simp [h3]
  by_cases h2 : l = getPromLabels "api" "default" "v1.Deployment"
  · simp [h2]
  by_cases h1 : l = getPromLabels "web" "default" "v1.Deployment"
  · simp [h1]
  exact absurd (by simp [GaugeVec.Set, GaugeVec.empty, h1, h2, h3]) hl

/-- C13: for every gauge state and every static cluster, a second sweep from the state
the first sweep returned returns that same state (and when the first sweep panics
there is no second one). -/
theorem ValidateWithClient_idempotent (m : GaugeVec) (kubeClient : Client) :
    (ValidateWithClient m kubeClient).bind (fun m' => ValidateWithClient m' kubeClient) =
      ValidateWithClient m kubeClient := by
  have h : ∀ m' : GaugeVec,
      ValidateWithClient m' kubeClient = runCalls m' (sweepCalls kubeClient) :=
    fun m' => ValidateWithClient_eq_runCalls m' kubeClient
  simp only [h]
  exact runCalls_idempotent m (sweepCalls kubeClient)

end Validations

/-! ## Construction of the rule -/

namespace Validations

/-- C12, as stated, fails: when the gauge is created and the registry refuses it as a
duplicate, `MustRegister` panics and `init` does not return. -/
theorem init_duplicate_registration_counterexample :
    init duplicateStartup { stdout := [], validations := [] } =
      .panicked "duplicate metrics collector registration attempted" := by
  rfl

/-- C12, amended: when creating the gauge fails, `init` prints the failure, adds no
validation and returns; when the gauge is created and registered, `init` returns
after adding the rule exactly once; when the registry refuses the gauge,
`MustRegister` panics and `init` does not return. -/
theorem init_outcomes (env : Startup) (p : Process) :
    (∀ e, env.newGaugeVecMetric "request_limit_validation"
        "resource does not have requests or limits." ["namespace", "name", "kind"] = .error e →
      init env p =
        .returned { stdout := p.stdout ++ ["failed to add RequestLimitValidation: " ++ e],
                    validations := p.validations }) ∧
    (∀ g, env.newGaugeVecMetric "request_limit_validation"
        "resource does not have requests or limits." ["namespace", "name", "kind"] = .ok g →
      env.Register g = none →
      init env p =
        .returned { stdout := p.stdout, validations := p.validations ++ [{ metric := g }] }) ∧
    (∀ g e, env.newGaugeVecMetric "request_limit_validation"
        "resource does not have requests or limits." ["namespace", "name", "kind"] = .ok g →
      env.Register g = some e →
      init env p = .panicked e) := by
  refine ⟨?_, ?_, ?_⟩
  · intro e he
    simp [init, newRequestLimitValidation, he]
  · intro g hg hr
    simp [init, newRequestLimitValidation, hg, hr, AddValidation]
  · intro g e hg hr
    simp [init, newRequestLimitValidation, hg, hr]

/-- Both returning cases on sample start-ups: a failing gauge creation leaves one
printed line and no validation, a clean start-up leaves the rule registered once. -/
theorem init_outcomes_witness :
    init failingGaugeStartup { stdout := [], validations := [] } =
        .returned { stdout := ["failed to add RequestLimitValidation: invalid metric name"],
                    validations := [] } ∧
      init cleanStartup { stdout := [], validations := [] } =
        .returned { stdout := [],
                    validations := [{ metric :=
                      { name := "request_limit_validation",
                        help := "resource does not have requests or limits.",
                        labelNames := ["namespace", "name", "kind"] } }] } :=
  ⟨(init_outcomes failingGaugeStartup { stdout := [], validations := [] }).1 _ rfl,
   (init_outcomes cleanStartup { stdout := [], validations := [] }).2.1 _ rfl rfl⟩

end Validations

/-! ## Frame and write sequence of one call -/

namespace Validations

theorem containerOps_all (l : Labels) (cs : List Container)
    (hall : ∀ d ∈ cs, lacksRequestOrLimit d = false) :
    containerOps l cs = List.replicate cs.length (.Set l 0) := by
  induction cs with
  | nil => rfl
  | cons c cs ih =>
    have hc : lacksRequestOrLimit c = false := hall c (List.mem_cons_self _ _)
    rw [containerOps, ih (fun d hd => hall d (List.mem_cons_of_mem _ hd))]
    simp [hc, List.replicate_succ]

theorem containerOps_first_lacking (l : Labels) (pre : List Container) (c : Container)
    (post : List Container) (hpre : ∀ d ∈ pre, lacksRequestOrLimit d = false)
    (hc : lacksRequestOrLimit c = true) :
    containerOps l (pre ++ c :: post) =
      List.replicate pre.length (.Set l 0) ++ [.Set l 1] := by
  induction pre with
  | nil => simp [containerOps, hc]
  | cons d ds ih =>
    have hd : lacksRequestOrLimit d = false := hpre d (List.mem_cons_self _ _)
    rw [List.cons_append, containerOps, ih (fun x hx => hpre x (List.mem_cons_of_mem _ hx))]
    simp [hd, List.replicate_succ]

/-- The loop issues no operation other than `Set` of 0 or 1 on its label set. -/
theorem containerOps_mem (l : Labels) (cs : List Container) (op : GaugeOp)
    (h : op ∈ containerOps l cs) : op = .Set l 0 ∨ op = .Set l 1 := by
  induction cs with
  | nil => cases h
  | cons c cs ih =>
    rw [containerOps] at h
    cases hc : lacksRequestOrLimit c with
    | true =>
      simp only [hc, if_true, List.mem_singleton] at h
      exact Or.inr h
    | false =>
      simp only [hc, Bool.false_eq_true, if_false, List.mem_cons] at h
      rcases h with h | h
      · exact Or.inl h
      · exact ih h

/-- On a non-empty container list the loop issues at least one `Set`. -/
theorem containerOps_head (l : Labels) (c : Container) (cs : List Container) :
    ∃ v rest, containerOps l (c :: cs) = .Set l v :: rest := by
  rw [containerOps]
  cases hc : lacksRequestOrLimit c with
  | true => exact ⟨1, [], by simp⟩
  | false => exact ⟨0, containerOps l cs, by simp⟩

theorem ValidateOps_positive (request : Request) (kind : String) (obj : Obj)
    (w : Workload) (n : Int) (hobj : obj = .Deployment w ∨ obj = .ReplicaSet w)
    (hrep : w.Replicas = some n) (hpos : 0 < n) :
    ValidateOps request kind obj false =
      some (containerOps (getPromLabels request.Name request.Namespace kind) w.Containers) := by
  rcases hobj with rfl | rfl <;>
    simp [ValidateOps, replicaCnt, podTemplateContainers, hrep, hpos]

theorem getPromLabels_injective (name ns kind name' ns' kind' : String)
    (h : getPromLabels name ns kind = getPromLabels name' ns' kind') :
    ns = ns' ∧ name = name' ∧ kind = kind' := by
  simp only [getPromLabels, Labels.mk.injEq] at h
  exact h

/-- C14: a returning call, deleted or not and whatever its object, leaves the series
of every identity other than its own as it was: same presence, same value. -/
theorem Validate_other_identity_unchanged (m m' : GaugeVec) (request : Request)
    (kind : String) (obj : Obj) (isDeleted : Bool)
    (h : Validate m request kind obj isDeleted = some m')
    (ns' name' kind' : String)
    (hne : (ns', name', kind') ≠ (request.Namespace, request.Name, kind)) :
    m' (getPromLabels name' ns' kind') = m (getPromLabels name' ns' kind') := by
  have hl : getPromLabels name' ns' kind' ≠
      getPromLabels request.Name request.Namespace kind := by
    intro heq
    obtain ⟨h1, h2, h3⟩ := getPromLabels_injective _ _ _ _ _ _ heq
    exact hne (by rw [h1, h2, h3])
  rw [Validate_eq_applyOps] at h
  cases hops : ValidateOps request kind obj isDeleted with
  | none => simp [hops] at h
  | some ops =>
    simp only [hops, Option.map_some', Option.some.injEq] at h
    subst h
    apply GaugeVec.applyOps_other
    intro op hop
    unfold ValidateOps at hops
    cases isDeleted with
    | true =>
      simp only [if_true, Option.some.injEq] at hops
      subst hops
      rw [List.mem_singleton] at hop
      subst hop
      exact hl
    | false =>
      simp only [Bool.false_eq_true, if_false] at hops
      cases hr : replicaCnt obj with
      | none => simp [hr] at hops
      | some n =>
        simp only [hr] at hops
        by_cases hn : n > 0
        · simp only [hn, if_true] at hops
          cases hp : podTemplateContainers obj with
          | none => simp [hp] at hops
          | some cs =>
            simp only [hp, Option.some.injEq] at hops
            subst hops
            rcases containerOps_mem _ _ _ hop with rfl | rfl <;> exact hl
        · simp only [hn, if_false, Option.some.injEq] at hops
          subst hops
          cases hop

/-- The evaluation of `default/web` leaves the series of `default/api` at 1. -/
theorem Validate_other_identity_unchanged_witness :
    ((GaugeVec.empty.Set (getPromLabels "api" "default" "Deployment") 1).Set
        (getPromLabels "web" "default" "Deployment") 0)
        (getPromLabels "api" "default" "Deployment") =
      (GaugeVec.empty.Set (getPromLabels "api" "default" "Deployment") 1)
        (getPromLabels "api" "default" "Deployment") :=
  Validate_other_identity_unchanged
    (GaugeVec.empty.Set (getPromLabels "api" "default" "Deployment") 1)
    ((GaugeVec.empty.Set (getPromLabels "api" "default" "Deployment") 1).Set
      (getPromLabels "web" "default" "Deployment") 0)
    sampleRequest "Deployment" (.Deployment sampleWeb) false rfl
    "default" "api" "Deployment" (by decide)

end Validations

/-! ## The write sequence and negative replica counts -/

namespace Validations

/-- C15: the gauge operations of a non-deleted call on a Deployment or ReplicaSet with
a positive replica count are, when the first container lacking a request or limit
has index k, exactly k writes of 0 followed by one write of 1, and, when all n
containers are fully specified, exactly n writes of 0; so for k > 0 a series that
was at 1 reads 0 after the first write of the call and 1 again when it returns. -/
theorem ValidateOps_write_sequence (m : GaugeVec) (request : Request) (kind : String)
    (obj : Obj) (w : Workload) (n : Int)
    (hobj : obj = .Deployment w ∨ obj = .ReplicaSet w)
    (hrep : w.Replicas = some n) (hpos : 0 < n) :
    (∀ pre c post, w.Containers = pre ++ c :: post →
      (∀ d ∈ pre, fullySpecified d = true) → fullySpecified c = false →
      ValidateOps request kind obj false =
          some (List.replicate pre.length
              (.Set (getPromLabels request.Name request.Namespace kind) 0) ++
            [.Set (getPromLabels request.Name request.Namespace kind) 1]) ∧
        (pre ≠ [] → m (getPromLabels request.Name request.Namespace kind) = some 1 →
          ∃ rest, ValidateOps request kind obj false =
              some (.Set (getPromLabels request.Name request.Namespace kind) 0 :: rest) ∧
            (m.applyOp (.Set (getPromLabels request.Name request.Namespace kind) 0))
              (getPromLabels request.Name request.Namespace kind) = some 0 ∧
            Validate m request kind obj false =
              some ((m.applyOp
                (.Set (getPromLabels request.Name request.Namespace kind) 0)).applyOps rest) ∧
            ((m.applyOp (.Set (getPromLabels request.Name request.Namespace kind) 0)).applyOps
              rest) (getPromLabels request.Name request.Namespace kind) = some 1)) ∧
    ((∀ d ∈ w.Containers, fullySpecified d = true) →
      ValidateOps request kind obj false =
        some (List.replicate w.Containers.length
          (.Set (getPromLabels request.Name request.Namespace kind) 0))) := by
  have hops := ValidateOps_positive request kind obj w n hobj hrep hpos
  constructor
  · intro pre c post hsplit hpre hc
    have hpre' : ∀ d ∈ pre, lacksRequestOrLimit d = false := by
      intro d hd
      simp [lacksRequestOrLimit_eq, hpre d hd]
    have hc' : lacksRequestOrLimit c = true := by
      simp [lacksRequestOrLimit_eq, hc]
    have hseq : ValidateOps request kind obj false =
        some (List.replicate pre.length
            (.Set (getPromLabels request.Name request.Namespace kind) 0) ++
          [.Set (getPromLabels request.Name request.Namespace kind) 1]) := by
      rw [hops, hsplit, containerOps_first_lacking _ _ _ _ hpre' hc']
    refine ⟨hseq, ?_⟩
    intro hne _
    cases pre with
    | nil => exact absurd rfl hne
    | cons d ds =>
      refine ⟨List.replicate ds.length
          (.Set (getPromLabels request.Name request.Namespace kind) 0) ++
          [.Set (getPromLabels request.Name request.Namespace kind) 1], ?_, ?_, ?_, ?_⟩
      · rw [hseq]
        simp [List.replicate_succ]
      · exact GaugeVec.Set_same _ _ _
      · rw [Validate_eq_applyOps, hseq]
        simp [List.replicate_succ, GaugeVec.applyOps_cons]
      · rw [GaugeVec.applyOps_append, GaugeVec.applyOps_cons, GaugeVec.applyOps_nil]
        exact GaugeVec.Set_same _ _ _
  · intro hall
    have hall' : ∀ d ∈ w.Containers, lacksRequestOrLimit d = false := by
      intro d hd
      simp [lacksRequestOrLimit_eq, hall d hd]
    rw [hops, containerOps_all _ _ hall']

/-- The Deployment `default/api`, whose second container has no CPU limit: the call
writes 0 and then 1. -/
theorem ValidateOps_write_sequence_witness :
    ValidateOps { Namespace := "default", Name := "api" } "Deployment"
        (.Deployment sampleApi) false =
      some [.Set (getPromLabels "api" "default" "Deployment") 0,
            .Set (getPromLabels "api" "default" "Deployment") 1] :=
  ((ValidateOps_write_sequence
      (GaugeVec.empty.Set (getPromLabels "api" "default" "Deployment") 1)
      { Namespace := "default", Name := "api" } "Deployment" (.Deployment sampleApi)
      sampleApi 2 (Or.inl rfl) rfl (by decide)).1
    [sampleContainer] sampleContainerNoCpuLimit [] rfl (by decide) (by decide)).1

/-- C16: a non-deleted call on a Deployment or ReplicaSet with a negative replica
count returns the gauge state unchanged without any gauge operation; and a call
issues a `Set` on the gauge if and only if it is not a deletion, the replica count
is strictly positive and the container list is not empty. -/
theorem Validate_negative_replicas_unchanged (m : GaugeVec) (request : Request)
    (kind : String) (obj : Obj) (w : Workload) (isDeleted : Bool)
    (hobj : obj = .Deployment w ∨ obj = .ReplicaSet w) :
    ((∃ n, w.Replicas = some n ∧ n < 0) →
      Validate m request kind obj false = some m ∧
        ValidateOps request kind obj false = some []) ∧
    ((∃ ops, ValidateOps request kind obj isDeleted = some ops ∧
        ∃ l v, GaugeOp.Set l v ∈ ops) ↔
      (isDeleted = false ∧ (∃ n, w.Replicas = some n ∧ 0 < n) ∧ w.Containers ≠ [])) := by
  constructor
  · rintro ⟨n, hrep, hneg⟩
    have hn : ¬ n > 0 := not_lt.mpr (le_of_lt hneg)
    rcases hobj with rfl | rfl <;>
      simp [Validate, ValidateOps, replicaCnt, hrep, hn]
  · constructor
    · rintro ⟨ops, hops, l, v, hmem⟩
      cases isDeleted with
      | true =>
        simp only [ValidateOps, if_true, Option.some.injEq] at hops
        subst hops
        simp at hmem
      | false =>
        refine ⟨rfl, ?_⟩
        cases hrep : w.Replicas with
        | none => rcases hobj with rfl | rfl <;> simp [ValidateOps, replicaCnt, hrep] at hops
        | some n =>
          by_cases hn : 0 < n
          · refine ⟨⟨n, rfl, hn⟩, ?_⟩
            rw [ValidateOps_positive request kind obj w n hobj hrep hn] at hops
            intro hempty
            rw [hempty] at hops
            simp only [containerOps, Option.some.injEq] at hops
            subst hops
            cases hmem
          · exfalso
            rcases hobj with rfl | rfl <;>
              · simp only [ValidateOps, replicaCnt, hrep, Bool.false_eq_true, if_false,
                  gt_iff_lt, hn, Option.some.injEq] at hops
                subst hops
                cases hmem
    · rintro ⟨hdel, ⟨n, hrep, hn⟩, hne⟩
      subst hdel
      rw [ValidateOps_positive request kind obj w n hobj hrep hn]
      cases hcs : w.Containers with
      | nil => exact absurd hcs hne
      | cons c cs =>
        obtain ⟨v, rest, hhead⟩ :=
          containerOps_head (getPromLabels request.Name request.Namespace kind) c cs
        exact ⟨_, rfl, _, v, by rw [hhead]; exact List.mem_cons_self _ _⟩

/-- A Deployment with replica count -1 and a fully specified container, on a series
that was at 1: the call changes nothing. -/
theorem Validate_negative_replicas_unchanged_witness :
    Validate (GaugeVec.empty.Set (getPromLabels "web" "default" "Deployment") 1)
        sampleRequest "Deployment" (.Deployment sampleNegative) false =
      some (GaugeVec.empty.Set (getPromLabels "web" "default" "Deployment") 1) :=
  ((Validate_negative_replicas_unchanged _ sampleRequest "Deployment"
      (.Deployment sampleNegative) sampleNegative false (Or.inl rfl)).1
    ⟨-1, rfl, by decide⟩).1

end Validations

/-! ## The series a sweep leaves -/

namespace Validations

/-- A non-deleted call of the sweep on an instance with a positive replica count and
at least one container returns the state with the series of the instance set to
the expected value. -/
theorem Validate_sets_expectedValue (m : GaugeVec) (listObj : ListObj) (w : Workload) (n : Int)
    (hrep : w.Replicas = some n) (hpos : 0 < n) (hne : w.Containers ≠ []) :
    Validate m (listObj.call w).request (listObj.call w).kind (listObj.call w).obj false =
      some (m.Set (sweepLabels (listObj, w)) (expectedValue w)) := by
  have hobj : (listObj.call w).obj = .Deployment w ∨ (listObj.call w).obj = .ReplicaSet w := by
    cases listObj
    · exact Or.inl rfl
    · exact Or.inr rfl
  rw [Validate_positive m _ _ _ w n hobj hrep hpos]
  have hlab : getPromLabels (listObj.call w).request.Name (listObj.call w).request.Namespace
      (listObj.call w).kind = sweepLabels (listObj, w) := rfl
  rw [hlab]
  by_cases hall : w.Containers.all fullySpecified = true
  · have hall' : ∀ c ∈ w.Containers, lacksRequestOrLimit c = false := by
      intro c hc
      simp [lacksRequestOrLimit_eq, List.all_eq_true.mp hall c hc]
    rw [validateContainers_all _ _ _ hne hall']
    simp [expectedValue, hall]
  · have hex : ∃ c ∈ w.Containers, lacksRequestOrLimit c = true := by
      simp only [List.all_eq_true, not_forall] at hall
      obtain ⟨c, hc, hnot⟩ := hall
      exact ⟨c, hc, by simp [lacksRequestOrLimit_eq, hnot]⟩
    rw [validateContainers_some_lacking _ _ _ hex]
    simp [expectedValue, hall]

theorem sweepCalls_eq_instances (kubeClient : Client) :
    sweepCalls kubeClient = (clusterInstances kubeClient).map fun p => p.1.call p.2 := by
  simp [sweepCalls, clusterInstances, listObjs, List.map_map, Function.comp_def]

theorem runCalls_instances (m : GaugeVec) (ps : List (ListObj × Workload))
    (hgood : ∀ p ∈ ps, ∃ n, p.2.Replicas = some n ∧ 0 < n ∧ p.2.Containers ≠ []) :
    runCalls m (ps.map fun p => p.1.call p.2) =
      some (ps.foldl (fun s p => s.Set (sweepLabels p) (expectedValue p.2)) m) := by
  induction ps generalizing m with
  | nil => rfl
  | cons p ps ih =>
    obtain ⟨n, hrep, hpos, hne⟩ := hgood p (List.mem_cons_self _ _)
    have hcall : (p.1.call p.2).isDeleted = false := rfl
    simp only [List.map_cons, runCalls, hcall, List.foldl_cons]
    rw [Validate_sets_expectedValue m p.1 p.2 n hrep hpos hne]
    exact ih _ (fun q hq => hgood q (List.mem_cons_of_mem _ hq))

theorem foldl_Set_lookup (m : GaugeVec) (ps : List (ListObj × Workload))
    (hnodup : (ps.map sweepLabels).Nodup) (l : Labels) (v : Int) :
    (ps.foldl (fun s p => s.Set (sweepLabels p) (expectedValue p.2)) m) l = some v ↔
      (∃ p ∈ ps, sweepLabels p = l ∧ expectedValue p.2 = v) ∨
        ((∀ p ∈ ps, sweepLabels p ≠ l) ∧ m l = some v) := by
  induction ps generalizing m with
  | nil => simp
  | cons p ps ih =>
    rw [List.map_cons, List.nodup_cons] at hnodup
    obtain ⟨hnot, hnd⟩ := hnodup
    rw [List.foldl_cons, ih _ hnd]
    by_cases hl : l = sweepLabels p
    · subst hl
      have hnone : ∀ q ∈ ps, sweepLabels q ≠ sweepLabels p := by
        intro q hq heq
        exact hnot (List.mem_map.mpr ⟨q, hq, heq⟩)
      rw [GaugeVec.Set_same]
      constructor
      · rintro (⟨q, hq, hql, _⟩ | ⟨_, hv⟩)
        · exact absurd hql (hnone q hq)
        · exact Or.inl ⟨p, List.mem_cons_self _ _, rfl, Option.some.inj hv⟩
      · rintro (⟨q, hq, hql, hv⟩ | ⟨hall, _⟩)
        · rcases List.mem_cons.mp hq with rfl | hq'
          · exact Or.inr ⟨hnone, by rw [hv]⟩
          · exact absurd hql (hnone q hq')
        · exact absurd rfl (hall p (List.mem_cons_self _ _))
    · rw [GaugeVec.Set_other _ _ _ _ hl]
      constructor
      · rintro (⟨q, hq, hql, hv⟩ | ⟨hall, hv⟩)
        · exact Or.inl ⟨q, List.mem_cons_of_mem _ hq, hql, hv⟩
        · refine Or.inr ⟨?_, hv⟩
          intro q hq
          rcases List.mem_cons.mp hq with rfl | hq'
          · exact fun h => hl h.symm
          · exact hall q hq'
      · rintro (⟨q, hq, hql, hv⟩ | ⟨hall, hv⟩)
        · rcases List.mem_cons.mp hq with rfl | hq'
          · exact absurd hql.symm hl
          · exact Or.inl ⟨q, hq', hql, hv⟩
        · exact Or.inr ⟨fun q hq => hall q (List.mem_cons_of_mem _ hq), hv⟩

/-- From the empty gauge state, the sweep over a cluster whose instances all have a
positive replica count and at least one container, and are evaluated under pairwise
distinct label sets, returns a state whose series are exactly those of the
instances, each under the label set of the sweep and with the expected value. -/
theorem ValidateWithClient_series (kubeClient : Client)
    (hgood : ∀ p ∈ clusterInstances kubeClient,
      ∃ n, p.2.Replicas = some n ∧ 0 < n ∧ p.2.Containers ≠ [])
    (hnodup : ((clusterInstances kubeClient).map sweepLabels).Nodup) :
    ∃ s, ValidateWithClient GaugeVec.empty kubeClient = some s ∧
      ∀ l v, s l = some v ↔
        ∃ p ∈ clusterInstances kubeClient, sweepLabels p = l ∧ expectedValue p.2 = v := by
  refine ⟨(clusterInstances kubeClient).foldl
    (fun s p => s.Set (sweepLabels p) (expectedValue p.2)) GaugeVec.empty, ?_, ?_⟩
  · rw [ValidateWithClient_eq_runCalls, sweepCalls_eq_instances]
    exact runCalls_instances _ _ hgood
  · intro l v
    rw [foldl_Set_lookup _ _ hnodup]
    constructor
    · rintro (h | ⟨_, hv⟩)
      · exact h
      · simp [GaugeVec.empty] at hv
    · exact Or.inl

end Validations
